import Mathlib

/-!
Shallow embedding of the Blog_App backend (Django project) core data model and
operations, with theorems checking the natural-language specification against
the code.  Relational tables are embedded as Lean lists of rows; each view or
serializer method is embedded as a pure Lean function over an explicit
database state.
-/

namespace Blog

/-- A row of the custom User table (users/models.py, class User).
Only the columns the verified operations consult are kept. -/
structure UserT where
  id : Nat
  username : String
  is_staff : Bool
  deriving Repr, DecidableEq

/-- A row of the Post table (blog models; columns as used by blog/views.py
and blog/serializers.py). -/
structure PostT where
  id : Nat
  title : String
  slug : String
  authorId : Nat
  content : String
  excerpt : String
  status : String
  is_featured : Bool
  views_count : Nat
  published_at : Option Nat
  categoryId : Option Nat
  tags : List Nat
  deriving Repr, DecidableEq

/-- A row of the Comment table: post FK, author FK, optional parent FK
(self-referential tree), content and approval flag. -/
structure CommentT where
  id : Nat
  postId : Nat
  authorId : Nat
  parent : Option Nat
  content : String
  is_approved : Bool
  deriving Repr, DecidableEq

/-- A row of the Like table: a (post, user) pair. -/
structure LikeT where
  postId : Nat
  userId : Nat
  deriving Repr, DecidableEq

/-- A row of the UserProfile table (users/models.py, class UserProfile). -/
structure Profile where
  userId : Nat
  phone_number : String
  notification_enabled : Bool
  email_verified : Bool
  is_public : Bool
  deriving Repr, DecidableEq

/-- The relational store: one list of rows per table. -/
structure DB where
  users : List UserT
  posts : List PostT
  comments : List CommentT
  likes : List LikeT
  profiles : List Profile
  deriving Repr, DecidableEq

/-! ### Decimal representation of counters

The slug collision loop in blog/views.py builds candidate slugs with a Python
f-string, i.e. the decimal representation of the counter.  Lean renders the
counter with Nat.repr; the development below proves Nat.repr is injective,
which is what makes the candidate slugs pairwise distinct. -/

/-- Decimal digits of a natural number, most significant first. -/
def natDigits (n : Nat) : List Nat :=
  if h : n < 10 then [n]
  else natDigits (n / 10) ++ [n % 10]
termination_by n
decreasing_by
  exact Nat.div_lt_self (by omega) (by omega)

/-- Recombine a digit list (most significant first) into a number. -/
def unDigits (l : List Nat) : Nat :=
  l.foldl (fun a d => 10 * a + d) 0

theorem unDigits_append (l : List Nat) (d : Nat) :
    unDigits (l ++ [d]) = 10 * unDigits l + d := by
  unfold unDigits
  rw [List.foldl_append]
  rfl

theorem unDigits_natDigits (n : Nat) : unDigits (natDigits n) = n := by
  induction n using Nat.strong_induction_on with
  | _ n ih =>
    unfold natDigits
    by_cases h : n < 10
    · simp [h, unDigits]
    · have hdiv : n / 10 < n := Nat.div_lt_self (by omega) (by omega)
      simp only [h, dite_false]
      rw [unDigits_append, ih _ hdiv]
      omega

theorem natDigits_lt (n : Nat) : ∀ d ∈ natDigits n, d < 10 := by
  induction n using Nat.strong_induction_on with
  | _ n ih =>
    unfold natDigits
    by_cases h : n < 10
    · simp [h]
    · have hdiv : n / 10 < n := Nat.div_lt_self (by omega) (by omega)
      simp only [h, dite_false]
      intro d hd
      rcases List.mem_append.1 hd with h1 | h2
      · exact ih _ hdiv d h1
      · simp at h2
        omega

theorem natDigits_ne_nil (n : Nat) : natDigits n ≠ [] := by
  unfold natDigits
  by_cases h : n < 10 <;> simp [h]

theorem digitChar_inj_lt :
    ∀ a, a < 10 → ∀ b, b < 10 → Nat.digitChar a = Nat.digitChar b → a = b := by
  decide

theorem map_digitChar_inj (l₁ l₂ : List Nat)
    (h₁ : ∀ d ∈ l₁, d < 10) (h₂ : ∀ d ∈ l₂, d < 10)
    (h : l₁.map Nat.digitChar = l₂.map Nat.digitChar) : l₁ = l₂ := by
  induction l₁ generalizing l₂ with
  | nil =>
    cases l₂ with
    | nil => rfl
    | cons b bs => simp at h
  | cons a as ih =>
    cases l₂ with
    | nil => simp at h
    | cons b bs =>
      simp only [List.map_cons, List.cons.injEq] at h
      have ha : a = b :=
        digitChar_inj_lt a (h₁ a (by simp)) b (h₂ b (by simp)) h.1
      have has : as = bs :=
        ih bs (fun d hd => h₁ d (List.mem_cons_of_mem _ hd))
          (fun d hd => h₂ d (List.mem_cons_of_mem _ hd)) h.2
      rw [ha, has]

theorem toDigitsCore_eq_natDigits (f : Nat) :
    ∀ n ds, n < f →
      Nat.toDigitsCore 10 f n ds = (natDigits n).map Nat.digitChar ++ ds := by
  induction f with
  | zero => intro n ds h; omega
  | succ g ih =>
    intro n ds h
    show (if n / 10 = 0 then Nat.digitChar (n % 10) :: ds
      else Nat.toDigitsCore 10 g (n / 10) (Nat.digitChar (n % 10) :: ds)) =
      (natDigits n).map Nat.digitChar ++ ds
    by_cases h10 : n < 10
    · have hz : n / 10 = 0 := Nat.div_eq_of_lt h10
      have hm : n % 10 = n := Nat.mod_eq_of_lt h10
      simp [hz, hm, natDigits, h10]
    · have hz : n / 10 ≠ 0 := by
        intro hc
        have := Nat.div_eq_of_lt (show n < 10 by omega)
        omega
      have hdiv : n / 10 < n := Nat.div_lt_self (by omega) (by omega)
      simp only [hz, if_false]
      rw [ih (n / 10) (Nat.digitChar (n % 10) :: ds) (by omega)]
      conv_rhs => rw [natDigits]
      simp [h10]

theorem toDigits_eq_natDigits (n : Nat) :
    Nat.toDigits 10 n = (natDigits n).map Nat.digitChar := by
  have := toDigitsCore_eq_natDigits (n + 1) n [] (by omega)
  simpa [Nat.toDigits] using this

theorem natRepr_injective (m n : Nat) (h : Nat.repr m = Nat.repr n) : m = n := by
  have hdata : (Nat.toDigits 10 m) = (Nat.toDigits 10 n) := by
    have := congrArg String.data h
    simpa [Nat.repr, List.asString] using this
  rw [toDigits_eq_natDigits, toDigits_eq_natDigits] at hdata
  have := map_digitChar_inj (natDigits m) (natDigits n)
    (natDigits_lt m) (natDigits_lt n) hdata
  calc m = unDigits (natDigits m) := (unDigits_natDigits m).symm
    _ = unDigits (natDigits n) := by rw [this]
    _ = n := unDigits_natDigits n

theorem natRepr_ne_nil (n : Nat) : (Nat.repr n).data ≠ [] := by
  have h1 : (Nat.repr n).data = (natDigits n).map Nat.digitChar := by
    simp [Nat.repr, List.asString, toDigits_eq_natDigits]
  rw [h1]
  simp [natDigits_ne_nil]

theorem string_append_cancel_left (a x y : String) (h : a ++ x = a ++ y) :
    x = y := by
  apply String.ext
  have hd := congrArg String.data h
  rw [String.data_append, String.data_append] at hd
  exact List.append_cancel_left hd

/-! ### Slug assigner (blog/views.py create_post lines 179-200, edit_post 240-265)

The varying Python code is: slug = slugify(title); original_slug = slug;
counter = 1; while <slug taken>: slug = original_slug + "-" + str(counter);
counter += 1.  The while loop is embedded with explicit fuel; fuel
existing.length + 1 is enough because the candidate slugs are pairwise
distinct, so the loop in the source always terminates within that bound. -/

/-- The suffixed candidate slug for a counter value. -/
def slugWithCounter (base : String) (counter : Nat) : String :=
  base ++ "-" ++ Nat.repr counter

/-- The j-th candidate examined by the collision loop: the base slug first,
then base-1, base-2, .... -/
def slugCandidate (base : String) : Nat → String
  | 0 => base
  | k + 1 => slugWithCounter base (k + 1)

/-- The collision-resolution while loop of create_post / edit_post. -/
def slugLoop (existing : List String) (original : String) :
    String → Nat → Nat → String
  | slug, _, 0 => slug
  | slug, counter, fuel + 1 =>
    if slug ∈ existing then
      slugLoop existing original (slugWithCounter original counter)
        (counter + 1) fuel
    else slug

/-- Unique slug generation: start from the base slug with counter 1, as in
the source. -/
def generateUniqueSlug (existing : List String) (base : String) : String :=
  slugLoop existing base base 1 (existing.length + 1)

theorem slugCandidate_injective (b : String) (j k : Nat)
    (h : slugCandidate b j = slugCandidate b k) : j = k := by
  match j, k with
  | 0, 0 => rfl
  | 0, k + 1 =>
    exfalso
    have hd := congrArg (fun s => s.data.length) h
    simp only [slugCandidate, slugWithCounter, String.data_append,
      List.length_append] at hd
    have h1 : ("-" : String).data.length = 1 := by decide
    have h2 : 0 < (Nat.repr (k + 1)).data.length :=
      List.length_pos.2 (natRepr_ne_nil _)
    rw [h1] at hd
    omega
  | j + 1, 0 =>
    exfalso
    have hd := congrArg (fun s => s.data.length) h
    simp only [slugCandidate, slugWithCounter, String.data_append,
      List.length_append] at hd
    have h1 : ("-" : String).data.length = 1 := by decide
    have h2 : 0 < (Nat.repr (j + 1)).data.length :=
      List.length_pos.2 (natRepr_ne_nil _)
    rw [h1] at hd
    omega
  | j + 1, k + 1 =>
    have h' : Nat.repr (j + 1) = Nat.repr (k + 1) :=
      string_append_cancel_left (b ++ "-") _ _ h
    have := natRepr_injective (j + 1) (k + 1) h'
    omega

theorem slugLoop_first_free (existing : List String) (b : String) (k : Nat)
    (hfree : slugCandidate b k ∉ existing)
    (htaken : ∀ j, j < k → slugCandidate b j ∈ existing) :
    ∀ fuel i, i ≤ k → k - i < fuel →
      slugLoop existing b (slugCandidate b i) (i + 1) fuel =
        slugCandidate b k := by
  intro fuel
  induction fuel with
  | zero => intro i _ h; omega
  | succ f ih =>
    intro i hik hfuel
    by_cases hik' : i = k
    · subst hik'
      simp [slugLoop, hfree]
    · have hlt : i < k := by omega
      have hin : slugCandidate b i ∈ existing := htaken i hlt
      have hstep : slugWithCounter b (i + 1) = slugCandidate b (i + 1) := rfl
      simp only [slugLoop, hin, if_true]
      rw [hstep]
      exact ih (i + 1) (by omega) (by omega)

theorem generateUniqueSlug_eq (existing : List String) (b : String) (k : Nat)
    (hfree : slugCandidate b k ∉ existing)
    (htaken : ∀ j, j < k → slugCandidate b j ∈ existing) :
    generateUniqueSlug existing b = slugCandidate b k := by
  have hk : k ≤ existing.length := by
    have hsub : ((List.range k).map (slugCandidate b)) ⊆ existing := by
      intro x hx
      rcases List.mem_map.1 hx with ⟨j, hj, rfl⟩
      exact htaken j (List.mem_range.1 hj)
    have hnd : ((List.range k).map (slugCandidate b)).Nodup := by
      refine List.Nodup.map_on ?_ (List.nodup_range k)
      intro x _ y _ hxy
      exact slugCandidate_injective b x y hxy
    have := (hnd.subperm hsub).length_le
    simpa using this
  have h0 : slugCandidate b 0 = b := rfl
  rw [generateUniqueSlug, ← h0]
  exact slugLoop_first_free existing b k hfree htaken
    (existing.length + 1) 0 (by omega) (by omega)

/-! ### Post creation and editing (blog/views.py create_post, edit_post) -/

/-- Slugs of all existing posts: the collision scope used by create_post
(checked against ALL posts, not scoped by author). -/
def takenSlugs (db : DB) : List String :=
  db.posts.map (fun p => p.slug)

/-- Slugs of all posts other than the one with the given id: the collision
scope used by edit_post (excludes the edited post's own id). -/
def slugsExcluding (db : DB) (pid : Nat) : List String :=
  (db.posts.filter (fun p => p.id != pid)).map (fun p => p.slug)

/-- Autoincrement primary key for a new row. -/
def nextId (ids : List Nat) : Nat :=
  ids.foldr (fun i m => max (i + 1) m) 0

/-- blog/views.py create_post: requires non-empty title and content,
generates a unique slug from slugify(title) against all posts, inserts the
post; published_at is now for a published post and absent otherwise.
The slugify normalization itself is an external Django helper, so it is a
function parameter here. -/
def create_post (slugify : String → String) (db : DB) (userId : Nat)
    (title content excerpt : String) (categoryId : Option Nat)
    (tagIds : List Nat) (status : String) (is_featured : Bool)
    (now : Nat) : DB × Option PostT :=
  if title ≠ "" ∧ content ≠ "" then
    let slug := generateUniqueSlug (takenSlugs db) (slugify title)
    let p : PostT :=
      { id := nextId (db.posts.map (fun q => q.id)), title := title,
        slug := slug, authorId := userId, content := content,
        excerpt := excerpt, status := status, is_featured := is_featured,
        views_count := 0,
        published_at := if status = "published" then some now else none,
        categoryId := categoryId, tags := tagIds }
    ({ db with posts := db.posts ++ [p] }, some p)
  else (db, none)

/-- get_object_or_404(Post, slug=slug), as used by edit_post (no status
filter there). -/
def findPostBySlug (db : DB) (slug : String) : Option PostT :=
  db.posts.find? (fun p => p.slug == slug)

/-- blog/views.py edit_post: look up the post by slug, require the requester
to be the author, require non-empty title and content; recompute the slug
(excluding the post's own id from the collision scope) only when the title
changed; set published_at to now only when the new status is published and
no published_at was present. -/
def edit_post (slugify : String → String) (db : DB) (userId : Nat)
    (slug : String) (title content excerpt : String) (categoryId : Option Nat)
    (tagIds : List Nat) (status : String) (is_featured : Bool) (now : Nat) :
    DB × Option PostT :=
  match findPostBySlug db slug with
  | none => (db, none)
  | some post =>
    if post.authorId ≠ userId then (db, none)
    else if title ≠ "" ∧ content ≠ "" then
      let newSlug :=
        if post.title ≠ title then
          generateUniqueSlug (slugsExcluding db post.id) (slugify title)
        else post.slug
      let updated : PostT :=
        { post with
          title := title
          slug := newSlug
          content := content
          excerpt := excerpt
          categoryId := categoryId
          status := status
          is_featured := is_featured
          published_at :=
            if status = "published" ∧ post.published_at = none then some now
            else post.published_at
          tags := tagIds }
      ({ db with
          posts := db.posts.map (fun q => if q.id = post.id then updated else q) },
        some updated)
    else (db, none)

theorem create_post_slug_eq (slugify : String → String) (db : DB)
    (userId : Nat) (title content excerpt : String) (categoryId : Option Nat)
    (tagIds : List Nat) (status : String) (is_featured : Bool) (now : Nat)
    (ht : title ≠ "") (hc : content ≠ "") :
    ((create_post slugify db userId title content excerpt categoryId tagIds
        status is_featured now).2.map PostT.slug =
      some (generateUniqueSlug (takenSlugs db) (slugify title))) ∧
    takenSlugs (create_post slugify db userId title content excerpt categoryId
        tagIds status is_featured now).1 =
      takenSlugs db ++ [generateUniqueSlug (takenSlugs db) (slugify title)] := by
  simp [create_post, ht, hc, takenSlugs]

/-- Claim C1: for every title T, creating a post computes the base slug
slugify(T) and, if that slug is taken among ALL existing posts, appends
-1, -2, ... incrementing until an unused slug is found (first conjunct:
the generated slug is the first free candidate); in particular creating
three posts with the identical title T from a state where the three
candidates are free yields slugify(T), slugify(T)-1 and slugify(T)-2
(second conjunct). -/
theorem C1_unique_slug_assignment :
    (∀ (existing : List String) (b : String) (k : Nat),
      slugCandidate b k ∉ existing →
      (∀ j, j < k → slugCandidate b j ∈ existing) →
      generateUniqueSlug existing b = slugCandidate b k) ∧
    (∀ (slugify : String → String) (db : DB) (title : String)
      (u₁ u₂ u₃ : Nat) (c₁ c₂ c₃ e₁ e₂ e₃ : String) (k₁ k₂ k₃ : Option Nat)
      (t₁ t₂ t₃ : List Nat) (s₁ s₂ s₃ : String) (f₁ f₂ f₃ : Bool)
      (n₁ n₂ n₃ : Nat),
      title ≠ "" → c₁ ≠ "" → c₂ ≠ "" → c₃ ≠ "" →
      slugify title ∉ takenSlugs db →
      slugCandidate (slugify title) 1 ∉ takenSlugs db →
      slugCandidate (slugify title) 2 ∉ takenSlugs db →
      ((create_post slugify db u₁ title c₁ e₁ k₁ t₁ s₁ f₁ n₁).2.map
          PostT.slug = some (slugify title)) ∧
      ((create_post slugify
          (create_post slugify db u₁ title c₁ e₁ k₁ t₁ s₁ f₁ n₁).1
          u₂ title c₂ e₂ k₂ t₂ s₂ f₂ n₂).2.map PostT.slug =
        some (slugCandidate (slugify title) 1)) ∧
      ((create_post slugify
          (create_post slugify
            (create_post slugify db u₁ title c₁ e₁ k₁ t₁ s₁ f₁ n₁).1
            u₂ title c₂ e₂ k₂ t₂ s₂ f₂ n₂).1
          u₃ title c₃ e₃ k₃ t₃ s₃ f₃ n₃).2.map PostT.slug =
        some (slugCandidate (slugify title) 2))) := by
  constructor
  · exact fun existing b k hfree htaken =>
      generateUniqueSlug_eq existing b k hfree htaken
  · intro slugify db title u₁ u₂ u₃ c₁ c₂ c₃ e₁ e₂ e₃ k₁ k₂ k₃ t₁ t₂ t₃
      s₁ s₂ s₃ f₁ f₂ f₃ n₁ n₂ n₃ ht hc₁ hc₂ hc₃ hb0 hb1 hb2
    set b := slugify title with hb
    have hcand0 : slugCandidate b 0 = b := rfl
    -- first creation takes the base slug
    have h₁ := create_post_slug_eq slugify db u₁ title c₁ e₁ k₁ t₁ s₁ f₁ n₁
      ht hc₁
    have hg₁ : generateUniqueSlug (takenSlugs db) b = b := by
      rw [← hcand0]
      exact generateUniqueSlug_eq _ _ 0 (by rwa [hcand0]) (by omega)
    -- state after the first creation
    set db₁ := (create_post slugify db u₁ title c₁ e₁ k₁ t₁ s₁ f₁ n₁).1
      with hdb₁
    have htaken₁ : takenSlugs db₁ = takenSlugs db ++ [b] := by
      rw [hdb₁, h₁.2, hg₁]
    have h₂ := create_post_slug_eq slugify db₁ u₂ title c₂ e₂ k₂ t₂ s₂ f₂ n₂
      ht hc₂
    have hne10 : slugCandidate b 1 ≠ b := by
      rw [← hcand0]
      intro hcc
      exact absurd (slugCandidate_injective b 1 0 hcc) (by omega)
    have hg₂ : generateUniqueSlug (takenSlugs db₁) b = slugCandidate b 1 := by
      apply generateUniqueSlug_eq
      · rw [htaken₁]
        simp [hne10]
        exact hb1
      · intro j hj
        have hj0 : j = 0 := by omega
        subst hj0
        rw [hcand0, htaken₁]
        simp
    set db₂ := (create_post slugify db₁ u₂ title c₂ e₂ k₂ t₂ s₂ f₂ n₂).1
      with hdb₂
    have htaken₂ : takenSlugs db₂ = (takenSlugs db ++ [b]) ++
        [slugCandidate b 1] := by
      rw [hdb₂, h₂.2, hg₂, htaken₁]
    have h₃ := create_post_slug_eq slugify db₂ u₃ title c₃ e₃ k₃ t₃ s₃ f₃ n₃
      ht hc₃
    have hne20 : slugCandidate b 2 ≠ b := by
      rw [← hcand0]
      intro hcc
      exact absurd (slugCandidate_injective b 2 0 hcc) (by omega)
    have hne21 : slugCandidate b 2 ≠ slugCandidate b 1 := by
      intro hcc
      exact absurd (slugCandidate_injective b 2 1 hcc) (by omega)
    have hg₃ : generateUniqueSlug (takenSlugs db₂) b = slugCandidate b 2 := by
      apply generateUniqueSlug_eq
      · rw [htaken₂]
        simp [hne20, hne21]
        exact hb2
      · intro j hj
        interval_cases j
        · rw [hcand0, htaken₂]
          simp
        · rw [htaken₂]
          simp
    refine ⟨?_, ?_, ?_⟩
    · rw [h₁.1, hg₁]
    · rw [h₂.1, hg₂]
    · rw [h₃.1, hg₃]

/-- Witness for C1 at a concrete state: an empty database and title with
base slug test-post; the three creations produce test-post, test-post-1
and test-post-2. -/
theorem C1_unique_slug_assignment_witness :
    ((create_post (fun _ => "test-post") ⟨[], [], [], [], []⟩ 1 "Test Post"
        "a" "" none [] "draft" false 0).2.map PostT.slug =
      some "test-post") ∧
    ((create_post (fun _ => "test-post")
        (create_post (fun _ => "test-post") ⟨[], [], [], [], []⟩ 1 "Test Post"
          "a" "" none [] "draft" false 0).1 2 "Test Post"
        "b" "" none [] "draft" false 0).2.map PostT.slug =
      some (slugCandidate "test-post" 1)) ∧
    ((create_post (fun _ => "test-post")
        (create_post (fun _ => "test-post")
          (create_post (fun _ => "test-post") ⟨[], [], [], [], []⟩ 1
            "Test Post" "a" "" none [] "draft" false 0).1 2 "Test Post"
          "b" "" none [] "draft" false 0).1 3 "Test Post"
        "c" "" none [] "draft" false 0).2.map PostT.slug =
      some (slugCandidate "test-post" 2)) := by
  have h := C1_unique_slug_assignment.2 (fun _ => "test-post")
    ⟨[], [], [], [], []⟩ "Test Post" 1 2 3 "a" "b" "c" "" "" ""
    none none none [] [] [] "draft" "draft" "draft" false false false 0 0 0
    (by decide) (by decide) (by decide) (by decide)
    (by simp [takenSlugs]) (by simp [takenSlugs]) (by simp [takenSlugs])
  exact h

/-- Claim C2: editing a post without changing its title leaves its slug
unchanged (first conjunct), and when the title does change the collision
check excludes the post's own id, so a new base slug that collides with no
OTHER post is used without any suffix (second conjunct). -/
theorem C2_edit_slug_stability
    (slugify : String → String) (db : DB) (userId : Nat) (slug : String)
    (post : PostT) (content excerpt : String) (categoryId : Option Nat)
    (tagIds : List Nat) (status : String) (is_featured : Bool) (now : Nat)
    (hfind : findPostBySlug db slug = some post)
    (hauthor : post.authorId = userId)
    (hcontent : content ≠ "") :
    (post.title ≠ "" →
      (edit_post slugify db userId slug post.title content excerpt categoryId
        tagIds status is_featured now).2.map PostT.slug = some post.slug) ∧
    (∀ title, title ≠ "" → title ≠ post.title →
      slugify title ∉ slugsExcluding db post.id →
      (edit_post slugify db userId slug title content excerpt categoryId
        tagIds status is_featured now).2.map PostT.slug =
        some (slugify title)) := by
  constructor
  · intro htitle
    simp [edit_post, hfind, hauthor, htitle, hcontent]
  · intro title htitle hne hfree
    have hg : generateUniqueSlug (slugsExcluding db post.id) (slugify title) =
        slugify title := by
      have hcand0 : slugCandidate (slugify title) 0 = slugify title := rfl
      rw [← hcand0]
      exact generateUniqueSlug_eq _ _ 0 (by rwa [hcand0]) (by omega)
    have hne' : post.title ≠ title := fun hcc => hne hcc.symm
    simp [edit_post, hfind, hauthor, htitle, hcontent, hne', hg]

/-- Witness for C2: a single-post database; re-saving with the same title
keeps slug hello, and changing the title to a fresh one takes its base slug
without a suffix. -/
theorem C2_edit_slug_stability_witness :
    ((edit_post (fun _ => "hello") ⟨[], [⟨1, "Hello", "hello", 7, "body", "",
        "draft", false, 0, none, none, []⟩], [], [], []⟩ 7 "hello" "Hello"
        "body2" "" none [] "draft" false 0).2.map PostT.slug =
      some "hello") ∧
    ((edit_post (fun _ => "world") ⟨[], [⟨1, "Hello", "hello", 7, "body", "",
        "draft", false, 0, none, none, []⟩], [], [], []⟩ 7 "hello" "World"
        "body2" "" none [] "draft" false 0).2.map PostT.slug =
      some "world") := by
  have h := C2_edit_slug_stability (fun _ => "hello")
    ⟨[], [⟨1, "Hello", "hello", 7, "body", "", "draft", false, 0, none,
      none, []⟩], [], [], []⟩ 7 "hello"
    ⟨1, "Hello", "hello", 7, "body", "", "draft", false, 0, none, none, []⟩
    "body2" "" none [] "draft" false 0 (by decide) rfl (by decide)
  have h2 := C2_edit_slug_stability (fun _ => "world")
    ⟨[], [⟨1, "Hello", "hello", 7, "body", "", "draft", false, 0, none,
      none, []⟩], [], [], []⟩ 7 "hello"
    ⟨1, "Hello", "hello", 7, "body", "", "draft", false, 0, none, none, []⟩
    "body2" "" none [] "draft" false 0 (by decide) rfl (by decide)
  exact ⟨h.1 (by decide),
    h2.2 "World" (by decide) (by decide) (by simp [slugsExcluding])⟩

/-! ### Like toggle (blog/api_views.py LikePostView.post, blog/views.py
toggle_like) and view counter (blog/views.py post_detail,
blog/api_views.py PostDetailView.retrieve) -/

/-- get_object_or_404(Post, slug=slug, status=published). -/
def findPublishedBySlug (db : DB) (slug : String) : Option PostT :=
  db.posts.find? (fun p => p.slug == slug && p.status == "published")

/-- post.likes.count(): the number of Like rows referencing the post.
This is also exactly the serializers' get_likes_count projection. -/
def likesCount (db : DB) (pid : Nat) : Nat :=
  (db.likes.filter (fun l => l.postId == pid)).length

/-- The number of Like rows for a given (post, user) pair. -/
def userLikes (db : DB) (pid uid : Nat) : Nat :=
  (db.likes.filter (fun l => l.postId == pid && l.userId == uid)).length

/-- like.delete(): remove the (first) Like row of the (post, user) pair. -/
def removeLike (db : DB) (pid uid : Nat) : DB :=
  { db with
    likes := db.likes.eraseP (fun l => l.postId == pid && l.userId == uid) }

/-- Like.objects.create(post=post, user=user). -/
def addLike (db : DB) (pid uid : Nat) : DB :=
  { db with likes := db.likes ++ [⟨pid, uid⟩] }

/-- LikePostView.post: look up the published post by slug; if a Like row for
(post, request.user) exists delete it and report liked=false with the new
count, otherwise create one and report liked=true with the new count. -/
def toggle_like (db : DB) (slug : String) (userId : Nat) :
    DB × Option (Bool × Nat) :=
  match findPublishedBySlug db slug with
  | none => (db, none)
  | some post =>
    match db.likes.find? (fun l => l.postId == post.id && l.userId == userId)
      with
    | some _ =>
      (removeLike db post.id userId,
        some (false, likesCount (removeLike db post.id userId) post.id))
    | none =>
      (addLike db post.id userId,
        some (true, likesCount (addLike db post.id userId) post.id))

theorem filter_length_eraseP {α : Type} (q r : α → Bool)
    (himp : ∀ a, q a = true → r a = true) :
    ∀ l : List α, (∃ a ∈ l, q a = true) →
      ((l.eraseP q).filter r).length + 1 = (l.filter r).length := by
  intro l
  induction l with
  | nil => rintro ⟨a, ha, _⟩; exact absurd ha (List.not_mem_nil a)
  | cons x xs ih =>
    rintro ⟨a, ha, hqa⟩
    by_cases hqx : q x = true
    · simp [List.eraseP_cons, hqx, himp x hqx]
    · have hqx' : q x = false := by simp at hqx; exact hqx
      have hax : a ≠ x := fun hc => by rw [hc] at hqa; simp [hqa] at hqx'
      have hmem : a ∈ xs := by
        rcases List.mem_cons.1 ha with h | h
        · exact absurd h hax
        · exact h
      have := ih ⟨a, hmem, hqa⟩
      by_cases hrx : r x = true
      · simp [List.eraseP_cons, hqx', hrx]
        omega
      · have hrx' : r x = false := by simp at hrx; exact hrx
        simp [List.eraseP_cons, hqx', hrx']
        omega

theorem eraseP_append_no_match {α : Type} (q : α → Bool) :
    ∀ l₁ l₂ : List α, (∀ a ∈ l₁, q a = false) →
      (l₁ ++ l₂).eraseP q = l₁ ++ l₂.eraseP q := by
  intro l₁
  induction l₁ with
  | nil => intro l₂ _; rfl
  | cons x xs ih =>
    intro l₂ h
    have hx : q x = false := h x (by simp)
    simp only [List.cons_append, List.eraseP_cons, hx, cond_false]
    rw [ih l₂ (fun a ha => h a (by simp [ha]))]

theorem find?_append_none {α : Type} (p : α → Bool) (l₁ l₂ : List α)
    (h : l₁.find? p = none) : (l₁ ++ l₂).find? p = l₂.find? p := by
  induction l₁ with
  | nil => rfl
  | cons x xs ih =>
    rw [List.find?_eq_none] at h
    have hx : ¬ p x = true := h x (by simp)
    have hxs : xs.find? p = none := by
      rw [List.find?_eq_none]
      exact fun a ha => h a (by simp [ha])
    simp only [List.cons_append, List.find?_cons]
    rw [Bool.eq_false_iff.2 hx]
    exact ih hxs

theorem userLikes_zero_find (db : DB) (pid uid : Nat)
    (h : userLikes db pid uid = 0) :
    db.likes.find? (fun l => l.postId == pid && l.userId == uid) = none := by
  rw [List.find?_eq_none]
  intro x hx hq
  have hmem : x ∈ db.likes.filter (fun l => l.postId == pid && l.userId == uid) :=
    List.mem_filter.2 ⟨hx, hq⟩
  unfold userLikes at h
  rw [List.length_eq_zero] at h
  rw [h] at hmem
  exact absurd hmem (List.not_mem_nil x)

theorem userLikes_pos_exists (db : DB) (pid uid : Nat)
    (h : 0 < userLikes db pid uid) :
    ∃ a ∈ db.likes, (a.postId == pid && a.userId == uid) = true := by
  unfold userLikes at h
  rcases List.exists_mem_of_length_pos h with ⟨a, ha⟩
  have hm := List.mem_filter.1 ha
  exact ⟨a, hm.1, hm.2⟩

theorem likesCount_addLike (db : DB) (pid uid : Nat) :
    likesCount (addLike db pid uid) pid = likesCount db pid + 1 := by
  simp [likesCount, addLike, List.filter_append]

theorem likesCount_removeLike (db : DB) (pid uid : Nat)
    (hex : ∃ a ∈ db.likes, (a.postId == pid && a.userId == uid) = true) :
    likesCount (removeLike db pid uid) pid + 1 = likesCount db pid := by
  have himp : ∀ l : LikeT,
      (l.postId == pid && l.userId == uid) = true →
      (l.postId == pid) = true := by
    intro l h
    rw [Bool.and_eq_true] at h
    exact h.1
  exact filter_length_eraseP _ _ himp db.likes hex

theorem userLikes_removeLike (db : DB) (pid uid : Nat)
    (hex : ∃ a ∈ db.likes, (a.postId == pid && a.userId == uid) = true) :
    userLikes (removeLike db pid uid) pid uid + 1 = userLikes db pid uid :=
  filter_length_eraseP _ _ (fun _ h => h) db.likes hex

/-- Claim C3: the like toggle creates the Like row when absent (liked=true,
count incremented), deletes it when present (liked=false, count
decremented), always reporting the new row count, and applying it twice for
the same (post, user) pair returns the count to its original value.  The
hypothesis userLikes db post.id userId <= 1 is the (post, user)
unique-together constraint of the Like table. -/
theorem C3_like_toggle (db : DB) (slug : String) (userId : Nat) (post : PostT)
    (hfind : findPublishedBySlug db slug = some post)
    (huniq : userLikes db post.id userId ≤ 1) :
    (userLikes db post.id userId = 0 →
      (toggle_like db slug userId).2 =
        some (true, likesCount db post.id + 1) ∧
      likesCount (toggle_like db slug userId).1 post.id =
        likesCount db post.id + 1) ∧
    (userLikes db post.id userId = 1 →
      (toggle_like db slug userId).2 =
        some (false, likesCount db post.id - 1) ∧
      likesCount (toggle_like db slug userId).1 post.id =
        likesCount db post.id - 1 ∧ 1 ≤ likesCount db post.id) ∧
    likesCount (toggle_like (toggle_like db slug userId).1 slug userId).1
      post.id = likesCount db post.id := by
  by_cases h0 : userLikes db post.id userId = 0
  · -- no like row yet: the toggle appends one
    have hnone := userLikes_zero_find db post.id userId h0
    have hres : toggle_like db slug userId =
        (addLike db post.id userId,
          some (true, likesCount (addLike db post.id userId) post.id)) := by
      simp [toggle_like, hfind, hnone]
    have hcount := likesCount_addLike db post.id userId
    refine ⟨fun _ => ⟨by rw [hres, hcount], by rw [hres, hcount]⟩,
      fun h1 => absurd (h0.symm.trans h1) (by omega), ?_⟩
    -- second toggle deletes the appended row
    rw [hres]
    have hfind₁ : findPublishedBySlug (addLike db post.id userId) slug =
        some post := hfind
    have hq : ((⟨post.id, userId⟩ : LikeT).postId == post.id &&
        (⟨post.id, userId⟩ : LikeT).userId == userId) = true := by simp
    have hsome₁ : (addLike db post.id userId).likes.find?
        (fun l => l.postId == post.id && l.userId == userId) =
        some ⟨post.id, userId⟩ := by
      show (db.likes ++ [(⟨post.id, userId⟩ : LikeT)]).find?
        (fun l => l.postId == post.id && l.userId == userId) =
        some ⟨post.id, userId⟩
      rw [find?_append_none _ _ _ hnone]
      simp only [List.find?_cons, hq]
    have herase : (addLike db post.id userId).likes.eraseP
        (fun l => l.postId == post.id && l.userId == userId) = db.likes := by
      show (db.likes ++ [(⟨post.id, userId⟩ : LikeT)]).eraseP
        (fun l => l.postId == post.id && l.userId == userId) = db.likes
      rw [eraseP_append_no_match]
      · simp only [List.eraseP_cons, hq, cond_true, List.append_nil]
      · intro a ha
        have := List.find?_eq_none.1 hnone a ha
        simpa using this
    simp only [toggle_like, hfind₁, hsome₁]
    simp only [likesCount, removeLike, herase]
  · -- exactly one like row: the toggle erases it
    have h1 : userLikes db post.id userId = 1 := by omega
    have hex := userLikes_pos_exists db post.id userId (by omega)
    have hx : ∃ x, db.likes.find?
        (fun l => l.postId == post.id && l.userId == userId) = some x := by
      rcases hex with ⟨a, hamem, haq⟩
      cases hfx : db.likes.find?
          (fun l => l.postId == post.id && l.userId == userId) with
      | none =>
        exact absurd haq (List.find?_eq_none.1 hfx a hamem)
      | some x => exact ⟨x, rfl⟩
    rcases hx with ⟨x, hx⟩
    have hres : toggle_like db slug userId =
        (removeLike db post.id userId,
          some (false, likesCount (removeLike db post.id userId) post.id)) := by
      simp [toggle_like, hfind, hx]
    have hcnt := likesCount_removeLike db post.id userId hex
    have hcount : likesCount (removeLike db post.id userId) post.id =
        likesCount db post.id - 1 := by omega
    have hpos : 1 ≤ likesCount db post.id := by omega
    refine ⟨fun hz => absurd (hz.symm.trans h1) (by omega),
      fun _ => ⟨by rw [hres, hcount], by rw [hres, hcount], hpos⟩, ?_⟩
    -- second toggle recreates the row
    rw [hres]
    have hfind₁ : findPublishedBySlug (removeLike db post.id userId) slug =
        some post := hfind
    have huser₁ : userLikes (removeLike db post.id userId) post.id userId = 0 := by
      have := userLikes_removeLike db post.id userId hex
      omega
    have hnone₁ := userLikes_zero_find (removeLike db post.id userId)
      post.id userId huser₁
    simp only [toggle_like, hfind₁, hnone₁]
    rw [likesCount_addLike, hcount]
    omega

/-- Witness for C3: one published post and one user; toggling from the
empty like table reports liked with count 1, and the double toggle
restores count 0. -/
theorem C3_like_toggle_witness :
    ((toggle_like ⟨[], [⟨1, "T", "t", 7, "c", "", "published", false, 0,
        none, none, []⟩], [], [], []⟩ "t" 7).2 = some (true, 1)) ∧
    likesCount (toggle_like (toggle_like ⟨[], [⟨1, "T", "t", 7, "c", "",
        "published", false, 0, none, none, []⟩], [], [], []⟩ "t" 7).1
      "t" 7).1 1 = 0 := by
  have h := C3_like_toggle ⟨[], [⟨1, "T", "t", 7, "c", "", "published",
      false, 0, none, none, []⟩], [], [], []⟩ "t" 7
    ⟨1, "T", "t", 7, "c", "", "published", false, 0, none, none, []⟩
    (by simp [findPublishedBySlug]) (by simp [userLikes])
  refine ⟨?_, ?_⟩
  · have h2 := h.1 (by simp [userLikes])
    have h3 : likesCount ⟨[], [⟨1, "T", "t", 7, "c", "", "published",
        false, 0, none, none, []⟩], [], [], []⟩ 1 = 0 := by
      simp [likesCount]
    rw [h3] at h2
    exact h2.1
  · have h2 := h.2.2
    have h3 : likesCount ⟨[], [⟨1, "T", "t", 7, "c", "", "published",
        false, 0, none, none, []⟩], [], [], []⟩ 1 = 0 := by
      simp [likesCount]
    rw [h3] at h2
    exact h2

/-- The per-row effect of the view-counter save: the looked-up post gets
views_count incremented, every other row is unchanged. -/
def bumpP (pid : Nat) (q : PostT) : PostT :=
  if q.id = pid then { q with views_count := q.views_count + 1 } else q

/-- post.views_count += 1; post.save(update_fields=[views_count]):
only the views_count column of the looked-up post is written. -/
def bumpViews (db : DB) (pid : Nat) : DB :=
  { db with posts := db.posts.map (bumpP pid) }

/-- blog/views.py post_detail (and PostDetailView.retrieve): fetch the
published post by slug, increment its views_count, persist, and return the
updated object. -/
def post_detail (db : DB) (slug : String) : DB × Option PostT :=
  match findPublishedBySlug db slug with
  | none => (db, none)
  | some post =>
    (bumpViews db post.id,
      some { post with views_count := post.views_count + 1 })

/-- The views_count of the first row with the given id. -/
def viewsOf (db : DB) (pid : Nat) : Option Nat :=
  (db.posts.find? (fun p => p.id == pid)).map (fun p => p.views_count)

theorem find?_map_pred {α β : Type} (f : α → β) (p : β → Bool) (l : List α) :
    (l.map f).find? p = (l.find? (fun a => p (f a))).map f := by
  induction l with
  | nil => rfl
  | cons x xs ih =>
    simp only [List.map_cons, List.find?_cons]
    cases hp : p (f x) <;> simp [hp, ih]

theorem bumpP_id (pid : Nat) (q : PostT) : (bumpP pid q).id = q.id := by
  unfold bumpP
  split <;> rfl

theorem bumpP_slug_status (pid : Nat) (q : PostT) :
    (bumpP pid q).slug = q.slug ∧ (bumpP pid q).status = q.status := by
  unfold bumpP
  split <;> exact ⟨rfl, rfl⟩

theorem findPublished_bumpViews (db : DB) (pid : Nat) (slug : String) :
    findPublishedBySlug (bumpViews db pid) slug =
      (findPublishedBySlug db slug).map (bumpP pid) := by
  unfold findPublishedBySlug bumpViews
  rw [show ({ db with posts := db.posts.map (bumpP pid) } : DB).posts =
    db.posts.map (bumpP pid) from rfl]
  rw [find?_map_pred]
  rw [show (fun a : PostT => (bumpP pid a).slug == slug &&
      (bumpP pid a).status == "published") =
    (fun p : PostT => p.slug == slug && p.status == "published") from
    funext fun a => by
      rw [(bumpP_slug_status pid a).1, (bumpP_slug_status pid a).2]]

theorem viewsOf_bumpViews (db : DB) (pid : Nat) :
    viewsOf (bumpViews db pid) pid =
      (viewsOf db pid).map (fun v => v + 1) := by
  unfold viewsOf bumpViews
  rw [show ({ db with posts := db.posts.map (bumpP pid) } : DB).posts =
    db.posts.map (bumpP pid) from rfl]
  rw [find?_map_pred]
  rw [show (fun a : PostT => (bumpP pid a).id == pid) =
    (fun a : PostT => a.id == pid) from funext fun a => by rw [bumpP_id]]
  cases hfind : db.posts.find? (fun p => p.id == pid) with
  | none => rfl
  | some p =>
    have hid : p.id = pid := by simpa using List.find?_some hfind
    simp [bumpP, hid]

theorem find?_id_of_nodup (l : List PostT)
    (hnd : (l.map (fun p => p.id)).Nodup) (p : PostT) (hp : p ∈ l) :
    l.find? (fun q => q.id == p.id) = some p := by
  induction l with
  | nil => cases hp
  | cons x xs ih =>
    rw [List.map_cons, List.nodup_cons] at hnd
    rcases List.mem_cons.1 hp with rfl | hmem
    · simp [List.find?_cons]
    · have hne : x.id ≠ p.id := by
        intro hc
        exact hnd.1 (hc ▸ List.mem_map_of_mem (fun p => p.id) hmem)
      simp only [List.find?_cons]
      rw [show (x.id == p.id) = false by simp [hne]]
      exact ih hnd.2 hmem

/-- Claim C4: a successful single-post detail retrieval by slug increments
that post's views_count by exactly 1 (no deduplication per viewer), two
consecutive fetches increase it by exactly 2, the returned object is the
old row with only views_count changed, every other post row is untouched,
and the comment and like tables are untouched. -/
theorem C4_view_counter (db : DB) (slug : String) (post : PostT)
    (hfind : findPublishedBySlug db slug = some post)
    (hids : (db.posts.map (fun p => p.id)).Nodup) :
    viewsOf (post_detail db slug).1 post.id = some (post.views_count + 1) ∧
    viewsOf (post_detail (post_detail db slug).1 slug).1 post.id =
      some (post.views_count + 2) ∧
    (post_detail db slug).2 =
      some { post with views_count := post.views_count + 1 } ∧
    (∀ q ∈ db.posts,
      (q.id ≠ post.id → q ∈ (post_detail db slug).1.posts) ∧
      (q.id = post.id →
        { q with views_count := q.views_count + 1 } ∈
          (post_detail db slug).1.posts)) ∧
    (post_detail db slug).1.comments = db.comments ∧
    (post_detail db slug).1.likes = db.likes := by
  have hmem : post ∈ db.posts := List.mem_of_find?_eq_some hfind
  have hviews : viewsOf db post.id = some post.views_count := by
    unfold viewsOf
    rw [find?_id_of_nodup db.posts hids post hmem]
    rfl
  have hres : post_detail db slug =
      (bumpViews db post.id,
        some { post with views_count := post.views_count + 1 }) := by
    simp [post_detail, hfind]
  have h1 : viewsOf (post_detail db slug).1 post.id =
      some (post.views_count + 1) := by
    rw [hres, viewsOf_bumpViews, hviews]
    rfl
  refine ⟨h1, ?_, by rw [hres], ?_, by rw [hres]; rfl, by rw [hres]; rfl⟩
  · -- second fetch
    have hfind₁ : findPublishedBySlug (bumpViews db post.id) slug =
        some (bumpP post.id post) := by
      rw [findPublished_bumpViews, hfind]
      rfl
    have hres₁ : post_detail (bumpViews db post.id) slug =
        (bumpViews (bumpViews db post.id) (bumpP post.id post).id,
          some { bumpP post.id post with
            views_count := (bumpP post.id post).views_count + 1 }) := by
      simp [post_detail, hfind₁]
    rw [hres, hres₁]
    rw [show (bumpViews (bumpViews db post.id) (bumpP post.id post).id,
        some { bumpP post.id post with
          views_count := (bumpP post.id post).views_count + 1 }).1 =
      bumpViews (bumpViews db post.id) (bumpP post.id post).id from rfl]
    rw [bumpP_id]
    rw [viewsOf_bumpViews, viewsOf_bumpViews, hviews]
    rfl
  · -- frame: other rows untouched, the hit row changes only in views_count
    intro q hq
    constructor
    · intro hne
      rw [hres]
      have himg : bumpP post.id q = q := by
        unfold bumpP
        simp [hne]
      have hm := List.mem_map_of_mem (bumpP post.id) hq
      rw [himg] at hm
      exact hm
    · intro heq
      rw [hres]
      have himg : bumpP post.id q =
          { q with views_count := q.views_count + 1 } := by
        unfold bumpP
        simp [heq]
      have hm := List.mem_map_of_mem (bumpP post.id) hq
      rw [himg] at hm
      exact hm

/-- Witness for C4 at a concrete database: one published post with 5 views;
one fetch yields 6 views, a second fetch yields 7. -/
theorem C4_view_counter_witness :
    viewsOf (post_detail ⟨[], [⟨1, "T", "t", 7, "c", "", "published", false,
      5, none, none, []⟩], [], [], []⟩ "t").1 1 = some 6 ∧
    viewsOf (post_detail (post_detail ⟨[], [⟨1, "T", "t", 7, "c", "",
      "published", false, 5, none, none, []⟩], [], [], []⟩ "t").1 "t").1 1 =
      some 7 := by
  have h := C4_view_counter ⟨[], [⟨1, "T", "t", 7, "c", "", "published",
      false, 5, none, none, []⟩], [], [], []⟩ "t"
    ⟨1, "T", "t", 7, "c", "", "published", false, 5, none, none, []⟩
    (by simp [findPublishedBySlug]) (by simp)
  exact ⟨h.1, h.2.1⟩

/-! ### User profile signals (users/signals.py, users/models.py) -/

/-- UserProfile.objects.create(user=instance): a profile row with the model
field defaults of users/models.py (phone_number blank, notification_enabled
true, email_verified false, is_public true). -/
def defaultProfile (uid : Nat) : Profile :=
  { userId := uid, phone_number := "", notification_enabled := true,
    email_verified := false, is_public := true }

/-- users/signals.py create_user_profile: post_save receiver that creates
the profile only when the save was a creation. -/
def create_user_profile (db : DB) (u : UserT) (created : Bool) : DB :=
  if created then
    { db with profiles := db.profiles ++ [defaultProfile u.id] }
  else db

/-- users/signals.py save_user_profile: post_save receiver that re-saves
the user's existing profile row; it writes the row back unchanged, so the
relational state is unchanged. -/
def save_user_profile (db : DB) (u : UserT) : DB := db

/-- User.save(): insert (creation) or update the user row, then run the two
post_save receivers in their registration order. -/
def save_user (db : DB) (u : UserT) (created : Bool) : DB :=
  let db₁ :=
    if created then { db with users := db.users ++ [u] }
    else
      { db with users := db.users.map (fun v => if v.id = u.id then u else v) }
  save_user_profile (create_user_profile db₁ u created) u

/-- The UserProfile rows belonging to a user. -/
def profilesOf (db : DB) (uid : Nat) : List Profile :=
  db.profiles.filter (fun p => p.userId == uid)

/-- Claim C5: creating a user creates exactly one UserProfile for it, with
defaults notification_enabled=true, email_verified=false, is_public=true,
phone_number empty; saving the user again (an update) never creates a
second profile. -/
theorem C5_profile_created_once (db : DB) (u : UserT)
    (hfresh : profilesOf db u.id = []) :
    profilesOf (save_user db u true) u.id = [defaultProfile u.id] ∧
    (defaultProfile u.id).phone_number = "" ∧
    (defaultProfile u.id).notification_enabled = true ∧
    (defaultProfile u.id).email_verified = false ∧
    (defaultProfile u.id).is_public = true ∧
    (∀ (db₂ : DB) (v : UserT), (save_user db₂ v false).profiles = db₂.profiles) := by
  refine ⟨?_, rfl, rfl, rfl, rfl, fun db₂ v => rfl⟩
  unfold profilesOf at hfresh ⊢
  unfold save_user save_user_profile create_user_profile
  simp only [if_true]
  rw [List.filter_append, hfresh]
  simp [defaultProfile]

/-- Witness for C5: registering a fresh user against an empty database
yields exactly the default profile row. -/
theorem C5_profile_created_once_witness :
    profilesOf (save_user ⟨[], [], [], [], []⟩ ⟨1, "alice", false⟩ true) 1 =
      [defaultProfile 1] := by
  have h := C5_profile_created_once ⟨[], [], [], [], []⟩ ⟨1, "alice", false⟩
    (by simp [profilesOf])
  exact h.1

/-! ### Approved-replies serialization (blog/serializers.py and
api/serializers.py, CommentSerializer.get_replies; PostDetailSerializer
.get_comments) -/

/-- The serialized shape of a comment: the fields the claim is about plus
the recursively serialized replies list. -/
structure SComment where
  id : Nat
  content : String
  is_approved : Bool
  replies : List SComment

/-- obj.replies.filter(is_approved=True): the approved direct replies of a
comment. -/
def approvedReplies (comments : List CommentT) (cid : Nat) : List CommentT :=
  comments.filter (fun c => c.parent == some cid && c.is_approved)

/-- CommentSerializer: serialize a comment, recursively serializing its
approved replies.  The Python recursion is unbounded (it terminates because
stored parent links are acyclic); the embedding recurses on explicit fuel,
with fuel 0 rendering an empty replies list. -/
def serializeComment (comments : List CommentT) : Nat → CommentT → SComment
  | 0, c => ⟨c.id, c.content, c.is_approved, []⟩
  | fuel + 1, c =>
    ⟨c.id, c.content, c.is_approved,
      (approvedReplies comments c.id).map
        (fun r => serializeComment comments fuel r)⟩

/-- PostDetailSerializer.get_comments: top-level (parent None) approved
comments of the post, each serialized with its recursive replies. -/
def serializePostComments (comments : List CommentT) (pid fuel : Nat) :
    List SComment :=
  (comments.filter
      (fun c => c.postId == pid && c.parent == none && c.is_approved)).map
    (fun c => serializeComment comments fuel c)

mutual

/-- Every reply nested anywhere below this serialized comment is approved. -/
def allRepliesApproved : SComment → Bool
  | ⟨_, _, _, rs⟩ => allRepliesApprovedList rs

/-- Every element of the list is approved and so are its nested replies. -/
def allRepliesApprovedList : List SComment → Bool
  | [] => true
  | r :: rs =>
    r.is_approved && allRepliesApproved r && allRepliesApprovedList rs

end

theorem serializeComment_is_approved (comments : List CommentT) (fuel : Nat)
    (c : CommentT) :
    (serializeComment comments fuel c).is_approved = c.is_approved := by
  cases fuel <;> simp [serializeComment]

theorem approvedReplies_approved (comments : List CommentT) (cid : Nat)
    (c : CommentT) (hc : c ∈ approvedReplies comments cid) :
    c.is_approved = true := by
  have := (List.mem_filter.1 hc).2
  rw [Bool.and_eq_true] at this
  exact this.2

theorem allRepliesApprovedList_map (comments : List CommentT) (fuel : Nat)
    (ih : ∀ c, allRepliesApproved (serializeComment comments fuel c) = true) :
    ∀ l : List CommentT, (∀ c ∈ l, c.is_approved = true) →
      allRepliesApprovedList
        (l.map (fun r => serializeComment comments fuel r)) = true := by
  intro l
  induction l with
  | nil => intro _; rfl
  | cons c cs ihl =>
    intro h
    simp only [List.map_cons, allRepliesApprovedList]
    rw [serializeComment_is_approved, h c (by simp), ih c,
      ihl (fun d hd => h d (by simp [hd]))]
    rfl

theorem serializeComment_allApproved (fuel : Nat) :
    ∀ (comments : List CommentT) (c : CommentT),
      allRepliesApproved (serializeComment comments fuel c) = true := by
  induction fuel with
  | zero =>
    intro comments c
    simp [serializeComment, allRepliesApproved]
    rfl
  | succ f ih =>
    intro comments c
    simp only [serializeComment, allRepliesApproved]
    exact allRepliesApprovedList_map comments f (ih comments)
      (approvedReplies comments c.id)
      (fun d hd => approvedReplies_approved comments c.id d hd)

/-- Claim C6: at every nesting depth the serialized replies field contains
only approved replies (first conjunct: the recursive serialization of any
comment satisfies the all-replies-approved predicate), and every comment
appearing in the post-detail projection is itself approved with only
approved replies below it (second conjunct). -/
theorem C6_replies_all_approved :
    (∀ (comments : List CommentT) (fuel : Nat) (c : CommentT),
      allRepliesApproved (serializeComment comments fuel c) = true) ∧
    (∀ (comments : List CommentT) (pid fuel : Nat) (s : SComment),
      s ∈ serializePostComments comments pid fuel →
      s.is_approved = true ∧ allRepliesApproved s = true) := by
  constructor
  · intro comments fuel c
    exact serializeComment_allApproved fuel comments c
  · intro comments pid fuel s hs
    rcases List.mem_map.1 hs with ⟨c, hc, rfl⟩
    have happ : c.is_approved = true := by
      have := (List.mem_filter.1 hc).2
      rw [Bool.and_eq_true] at this
      exact this.2
    refine ⟨?_, serializeComment_allApproved fuel comments c⟩
    rw [serializeComment_is_approved]
    exact happ

/-- Witness for C6: a post with one approved top-level comment, one
approved reply and one unapproved reply; the serialized top-level comment
is approved and all its nested replies are approved. -/
theorem C6_replies_all_approved_witness :
    (serializeComment [⟨1, 1, 1, none, "a", true⟩, ⟨2, 1, 1, some 1, "b",
        true⟩, ⟨3, 1, 1, some 1, "c", false⟩] 2
      ⟨1, 1, 1, none, "a", true⟩).is_approved = true ∧
    allRepliesApproved (serializeComment [⟨1, 1, 1, none, "a", true⟩,
      ⟨2, 1, 1, some 1, "b", true⟩, ⟨3, 1, 1, some 1, "c", false⟩] 2
      ⟨1, 1, 1, none, "a", true⟩) = true := by
  exact C6_replies_all_approved.2
    [⟨1, 1, 1, none, "a", true⟩, ⟨2, 1, 1, some 1, "b", true⟩,
      ⟨3, 1, 1, some 1, "c", false⟩] 1 2 _
    (List.mem_map_of_mem _ (by decide))

/-! ### published_at on update (blog/serializers.py
PostCreateUpdateSerializer.validate/update, blog/views.py edit_post) -/

/-- validated_data of PostCreateUpdateSerializer: an attribute bag where an
outer none means the client omitted the field.  For published_at the inner
Option is the nullable column value, so some none is an explicit null and
none an absent key. -/
structure Attrs where
  title : Option String
  content : Option String
  excerpt : Option String
  status : Option String
  published_at : Option (Option Nat)
  is_featured : Option Bool
  deriving Repr, DecidableEq

/-- attrs.get('published_at'): Python yields None both for an absent key
and for an explicit null value. -/
def Attrs.pubGet (a : Attrs) : Option Nat :=
  match a.published_at with
  | some (some t) => some t
  | _ => none

/-- PostCreateUpdateSerializer.validate: when attrs' status is published
and attrs.get('published_at') is falsy, write the current time into
attrs['published_at'].  The check reads the INCOMING attrs, not the stored
instance. -/
def serializer_validate (a : Attrs) (now : Nat) : Attrs :=
  if a.status = some "published" ∧ a.pubGet = none then
    { a with published_at := some (some now) }
  else a

/-- PostCreateUpdateSerializer.update's setattr loop followed by
instance.save(): every key present in validated_data overwrites the
corresponding instance field. -/
def apply_attrs (p : PostT) (a : Attrs) : PostT :=
  { p with
    title := a.title.getD p.title
    content := a.content.getD p.content
    excerpt := a.excerpt.getD p.excerpt
    status := a.status.getD p.status
    is_featured := a.is_featured.getD p.is_featured
    published_at :=
      match a.published_at with
      | some v => v
      | none => p.published_at }

/-- The API update path: validate the attrs, then apply them. -/
def api_update_post (p : PostT) (a : Attrs) (now : Nat) : PostT :=
  apply_attrs p (serializer_validate a now)

/-- Claim C7 counterexample: a post already published at time 5, re-saved
through the API serializer with status published and no published_at in
the payload, gets published_at reset to the save time 99 — the claim says
a later save of an already-published post does not change it. -/
theorem C7_published_at_counterexample :
    (api_update_post
      ⟨1, "T", "t", 7, "c", "", "published", false, 0, some 5, none, []⟩
      ⟨some "T", some "c", none, some "published", none, none⟩
      99).published_at = some 99 ∧
    (⟨1, "T", "t", 7, "c", "", "published", false, 0, some 5, none, []⟩ :
      PostT).published_at = some 5 := by
  constructor <;> rfl

/-- Claim C7 as amended: on the web edit path, published_at is set to the
current time exactly on the first transition to published when absent and
a previously set published_at is never changed (first conjunct); on the
API serializer path, any update whose payload carries status published and
omits or nulls published_at resets published_at to the current save time,
even if the instance was already published (second conjunct). -/
theorem C7_published_at_first_publish
    (slugify : String → String) (db : DB) (userId : Nat) (slug : String)
    (post : PostT) (title content excerpt : String) (categoryId : Option Nat)
    (tagIds : List Nat) (is_featured : Bool) (now : Nat)
    (hfind : findPostBySlug db slug = some post)
    (hauthor : post.authorId = userId)
    (htitle : title ≠ "") (hcontent : content ≠ "") :
    ((∀ t, post.published_at = some t →
      (edit_post slugify db userId slug title content excerpt categoryId
        tagIds "published" is_featured now).2.map PostT.published_at =
        some (some t)) ∧
    (post.published_at = none →
      (edit_post slugify db userId slug title content excerpt categoryId
        tagIds "published" is_featured now).2.map PostT.published_at =
        some (some now))) ∧
    (∀ (p : PostT) (a : Attrs) (m : Nat),
      a.status = some "published" → a.pubGet = none →
      (api_update_post p a m).published_at = some m) := by
  refine ⟨⟨?_, ?_⟩, ?_⟩
  · intro t hpub
    simp [edit_post, hfind, hauthor, htitle, hcontent, hpub]
  · intro hpub
    simp [edit_post, hfind, hauthor, htitle, hcontent, hpub]
  · intro p a m hst hpub
    unfold api_update_post serializer_validate
    rw [if_pos ⟨hst, hpub⟩]
    rfl

/-- Witness for C7's amended statement: the web edit of a post published at
5 keeps published_at 5, and the API update of the same post resets it to
the save time 99. -/
theorem C7_published_at_first_publish_witness :
    ((edit_post (fun _ => "t2") ⟨[], [⟨1, "T", "t", 7, "c", "", "published",
        false, 0, some 5, none, []⟩], [], [], []⟩ 7 "t" "T2" "c2" "" none []
        "published" false 99).2.map PostT.published_at = some (some 5)) ∧
    (api_update_post
      ⟨1, "T", "t", 7, "c", "", "published", false, 0, some 5, none, []⟩
      ⟨some "T", some "c", none, some "published", none, none⟩
      99).published_at = some 99 := by
  have h := C7_published_at_first_publish (fun _ => "t2")
    ⟨[], [⟨1, "T", "t", 7, "c", "", "published", false, 0, some 5, none,
      []⟩], [], [], []⟩ 7 "t"
    ⟨1, "T", "t", 7, "c", "", "published", false, 0, some 5, none, []⟩
    "T2" "c2" "" none [] false 99
    (by simp [findPostBySlug]) rfl (by decide) (by decide)
  exact ⟨h.1.1 5 rfl,
    h.2 ⟨1, "T", "t", 7, "c", "", "published", false, 0, some 5, none, []⟩
      ⟨some "T", some "c", none, some "published", none, none⟩ 99 rfl rfl⟩

/-! ### Comment creation (blog/api_views.py CommentCreateView.perform_create
with blog/serializers.py CommentSerializer; blog/views.py add_comment) -/

/-- CommentCreateView.perform_create with CommentSerializer validation: the
target post must exist and be published, content must be non-blank, a
supplied parent primary key must reference an existing comment (validated
against ALL comments — no check that the parent belongs to the same post),
and the stored author is always request.user; the client-supplied author
value is ignored because author is a read-only serializer field. -/
def comment_create (db : DB) (postId userId : Nat) (content : String)
    (parent : Option Nat) (clientAuthor : Option Nat) :
    DB × Option CommentT :=
  match db.posts.find? (fun p => p.id == postId && p.status == "published")
    with
  | none => (db, none)
  | some post =>
    if content = "" then (db, none)
    else
      match parent with
      | some pid =>
        if db.comments.any (fun c => c.id == pid) then
          ({ db with comments := db.comments ++
              [⟨nextId (db.comments.map (fun q => q.id)), post.id, userId,
                some pid, content, true⟩] },
            some ⟨nextId (db.comments.map (fun q => q.id)), post.id, userId,
              some pid, content, true⟩)
        else (db, none)
      | none =>
        ({ db with comments := db.comments ++
            [⟨nextId (db.comments.map (fun q => q.id)), post.id, userId,
              none, content, true⟩] },
          some ⟨nextId (db.comments.map (fun q => q.id)), post.id, userId,
            none, content, true⟩)

/-- Claim C8: every stored comment's author is the acting authenticated
user and the result does not depend on any client-supplied author value
(first two conjuncts); a parent id referencing no existing comment is
rejected (third conjunct); but a parent belonging to a DIFFERENT post is
accepted — no same-post validation exists (fourth conjunct). -/
theorem C8_comment_author_parent :
    (∀ (db : DB) (postId userId : Nat) (content : String)
      (parent : Option Nat) (clientAuthor : Option Nat) (db' : DB)
      (c : CommentT),
      comment_create db postId userId content parent clientAuthor =
        (db', some c) → c.authorId = userId) ∧
    (∀ (db : DB) (postId userId : Nat) (content : String)
      (parent : Option Nat) (x y : Option Nat),
      comment_create db postId userId content parent x =
        comment_create db postId userId content parent y) ∧
    (∀ (db : DB) (postId userId pid : Nat) (content : String)
      (clientAuthor : Option Nat),
      (∀ cc ∈ db.comments, cc.id ≠ pid) →
      (comment_create db postId userId content (some pid) clientAuthor).2 =
        none) ∧
    (∀ (db : DB) (postId userId pid : Nat) (content : String)
      (clientAuthor : Option Nat) (post : PostT) (parentC : CommentT),
      db.posts.find? (fun p => p.id == postId && p.status == "published") =
        some post →
      parentC ∈ db.comments → parentC.id = pid → parentC.postId ≠ postId →
      content ≠ "" →
      ∃ c, (comment_create db postId userId content (some pid)
          clientAuthor).2 = some c ∧
        c.parent = some pid ∧ c.authorId = userId ∧ c.postId = post.id) := by
  refine ⟨?_, ?_, ?_, ?_⟩
  · intro db postId userId content parent clientAuthor db' c h
    unfold comment_create at h
    cases hf : db.posts.find?
        (fun p => p.id == postId && p.status == "published") with
    | none => rw [hf] at h; simp at h
    | some post =>
      rw [hf] at h
      by_cases hc : content = ""
      · simp [hc] at h
      · cases parent with
        | none =>
          simp [hc] at h
          rw [← h.2]
        | some pid =>
          by_cases hany : db.comments.any (fun cc => cc.id == pid) = true
          · simp [hc, hany] at h
            rw [← h.2]
          · simp [hc, Bool.eq_false_iff.2 hany] at h
  · intro db postId userId content parent x y
    rfl
  · intro db postId userId pid content clientAuthor hne
    have hany : db.comments.any (fun c => c.id == pid) = false := by
      rw [List.any_eq_false]
      intro x hx
      intro hbe
      exact hne x hx (by simpa using hbe)
    unfold comment_create
    cases hf : db.posts.find?
        (fun p => p.id == postId && p.status == "published") with
    | none => rfl
    | some post =>
      by_cases hc : content = ""
      · simp [hc]
      · simp [hc, hany]
  · intro db postId userId pid content clientAuthor post parentC hfind hmem
      hpid hdiff hcontent
    have hany : db.comments.any (fun c => c.id == pid) = true :=
      List.any_eq_true.2 ⟨parentC, hmem, by simp [hpid]⟩
    refine ⟨⟨nextId (db.comments.map (fun q => q.id)), post.id, userId,
      some pid, content, true⟩, ?_, rfl, rfl, rfl⟩
    unfold comment_create
    rw [hfind]
    simp [hcontent, hany]

/-- Witness for C8: post 1 is published, comment 5 belongs to post 2; a
reply on post 1 whose parent is comment 5 (a different post's comment) is
accepted with the acting user as author, and a parent id matching no
comment is rejected. -/
theorem C8_comment_author_parent_witness :
    ((comment_create ⟨[], [⟨1, "T", "t", 7, "c", "", "published", false, 0,
        none, none, []⟩, ⟨2, "U", "u", 7, "c", "", "published", false, 0,
        none, none, []⟩], [⟨5, 2, 7, none, "x", true⟩], [], []⟩ 1 9 "hi"
        (some 5) (some 3)).2.map (fun c => (c.authorId, c.parent)) =
      some (9, some 5)) ∧
    ((comment_create ⟨[], [⟨1, "T", "t", 7, "c", "", "published", false, 0,
        none, none, []⟩], [], [], []⟩ 1 9 "hi" (some 5) none).2 = none) := by
  have h4 := C8_comment_author_parent.2.2.2
    ⟨[], [⟨1, "T", "t", 7, "c", "", "published", false, 0, none, none, []⟩,
      ⟨2, "U", "u", 7, "c", "", "published", false, 0, none, none, []⟩],
      [⟨5, 2, 7, none, "x", true⟩], [], []⟩ 1 9 5 "hi" (some 3)
    ⟨1, "T", "t", 7, "c", "", "published", false, 0, none, none, []⟩
    ⟨5, 2, 7, none, "x", true⟩
    (by simp [List.find?]) (by simp) rfl (by decide) (by decide)
  have h3 := C8_comment_author_parent.2.2.1
    ⟨[], [⟨1, "T", "t", 7, "c", "", "published", false, 0, none, none, []⟩],
      [], [], []⟩ 1 9 5 "hi" none
    (by intro cc hcc; simp at hcc)
  rcases h4 with ⟨c, hc, hparent, hauthor, _⟩
  constructor
  · rw [hc]
    simp [hauthor, hparent]
  · exact h3

/-! ### Owner-or-staff permission on post/comment mutation
(users/permissions.py IsOwnerOrReadOnly; blog/api_views.py PostUpdateView) -/

/-- The REST framework's safe (read-only) methods. -/
def SAFE_METHODS : List String := ["GET", "HEAD", "OPTIONS"]

/-- A Django model instance as handled by a generic object permission. -/
inductive ModelObj where
  | user : UserT → ModelObj
  | post : PostT → ModelObj
  | comment : CommentT → ModelObj

/-- Django Model equality: two instances are equal iff they are of the same
concrete model class and have the same primary key; instances of different
models are never equal. -/
def modelEq : ModelObj → ModelObj → Bool
  | ModelObj.user a, ModelObj.user b => a.id == b.id
  | ModelObj.post a, ModelObj.post b => a.id == b.id
  | ModelObj.comment a, ModelObj.comment b => a.id == b.id
  | _, _ => false

/-- users/permissions.py IsOwnerOrReadOnly.has_object_permission: safe
methods are always allowed; for write methods it returns
obj == request.user (Django model equality of the RESOURCE OBJECT and the
requesting user). -/
def has_object_permission (method : String) (requestUser : UserT)
    (obj : ModelObj) : Bool :=
  if SAFE_METHODS.contains method then true
  else modelEq obj (ModelObj.user requestUser)

/-- The row rewrite performed by a successful serializer update. -/
def updateRow (post : PostT) (attrs : Attrs) (now : Nat) (q : PostT) : PostT :=
  if q.id = post.id then api_update_post post attrs now else q

/-- The object stage shared by the mutating post views: 404 when the lookup
found nothing, then the IsOwnerOrReadOnly object permission (403 when it
denies), then the serializer update (200). -/
def object_stage (db : DB) (u : UserT) (method : String) (attrs : Attrs)
    (now : Nat) (found : Option PostT) : Nat × DB :=
  match found with
  | none => (404, db)
  | some post =>
    if has_object_permission method u (ModelObj.post post) then
      (200, { db with posts := db.posts.map (updateRow post attrs now) })
    else (403, db)

/-- blog/api_views.py PostUpdateView (PUT/PATCH): IsAuthenticated (401 when
anonymous), a queryset restricted to the requester's own posts (all posts
for staff), object lookup by slug within that queryset, then the object
stage above.  PostDeleteView, CommentUpdateView and CommentDeleteView use
the same permission chain. -/
def post_update (db : DB) (requestUser : Option UserT) (method slug : String)
    (attrs : Attrs) (now : Nat) : Nat × DB :=
  match requestUser with
  | none => (401, db)
  | some u =>
    let qs :=
      if u.is_staff then db.posts
      else db.posts.filter (fun p => p.authorId == u.id)
    object_stage db u method attrs now (qs.find? (fun p => p.slug == slug))

/-- Claim C9 refuted on the code: the OWNER of a post issuing PUT on their
own post receives 403 (first conjunct, at a concrete state), and in fact
no PUT/PATCH post-update request by anyone ever succeeds (second
conjunct), because IsOwnerOrReadOnly compares the Post object itself with
request.user and a post never equals a user under Django model equality;
an unauthenticated request does receive 401 as claimed (third conjunct). -/
theorem C9_owner_update_forbidden :
    ((post_update
        ⟨[⟨7, "alice", false⟩], [⟨1, "T", "t", 7, "c", "", "published",
          false, 0, none, none, []⟩], [], [], []⟩
        (some ⟨7, "alice", false⟩) "PUT" "t"
        ⟨some "T", some "c", none, some "published", none, none⟩ 0).1 =
      403) ∧
    (∀ (db : DB) (requestUser : Option UserT) (slug : String)
      (attrs : Attrs) (now : Nat),
      (post_update db requestUser "PUT" slug attrs now).1 ≠ 200 ∧
      (post_update db requestUser "PATCH" slug attrs now).1 ≠ 200) ∧
    (∀ (db : DB) (slug : String) (attrs : Attrs) (now : Nat),
      (post_update db none "PUT" slug attrs now).1 = 401) := by
  refine ⟨by decide, ?_, fun db slug attrs now => rfl⟩
  intro db requestUser slug attrs now
  have hgen : ∀ m : String, SAFE_METHODS.contains m = false →
      (post_update db requestUser m slug attrs now).1 ≠ 200 := by
    intro m hm
    have hstage : ∀ (u : UserT) (found : Option PostT),
        (object_stage db u m attrs now found).1 ≠ 200 := by
      intro u found
      cases found with
      | none => simp [object_stage]
      | some post =>
        have hperm : has_object_permission m u (ModelObj.post post) =
            false := by
          unfold has_object_permission
          rw [hm]
          simp [modelEq]
        simp [object_stage, hperm]
    unfold post_update
    cases requestUser with
    | none => simp
    | some u => exact hstage u _
  exact ⟨hgen "PUT" (by decide), hgen "PATCH" (by decide)⟩

/-! ### Search and filter layer (blog/api_views.py search_posts and
PostListView.get_queryset with its SearchFilter) -/

/-- Lowercased character data of a string: the view of both operands taken
by a case-insensitive icontains lookup. -/
def lowerStr (s : String) : List Char := s.data.map Char.toLower

/-- str.lower(): the lowercased string itself. -/
def strToLower (s : String) : String := ⟨s.data.map Char.toLower⟩

def isPrefixOfB : List Char → List Char → Bool
  | [], _ => true
  | _ :: _, [] => false
  | a :: as, b :: bs => a == b && isPrefixOfB as bs

def isInfixOfB (nd : List Char) : List Char → Bool
  | [] => isPrefixOfB nd []
  | c :: bs => isPrefixOfB nd (c :: bs) || isInfixOfB nd bs

/-- field__icontains=needle: case-insensitive substring containment. -/
def icontains (hay needle : String) : Bool :=
  isInfixOfB (lowerStr needle) (lowerStr hay)

/-- author__username resolution: the username of the post's author row. -/
def authorUsername (db : DB) (p : PostT) : String :=
  ((db.users.find? (fun u => u.id == p.authorId)).map
    (fun u => u.username)).getD ""

/-- PostListView's SearchFilter clause: icontains OR over title, content
and author__username. -/
def textMatch3 (db : DB) (q : String) (p : PostT) : Bool :=
  icontains p.title q || icontains p.content q ||
    icontains (authorUsername db p) q

/-- search_posts' text clause: icontains OR over title, content, excerpt
and author__username. -/
def textMatch4 (db : DB) (q : String) (p : PostT) : Bool :=
  icontains p.title q || icontains p.content q || icontains p.excerpt q ||
    icontains (authorUsername db p) q

/-- The SQL join produced by a tags__id filter: one result row per matching
tag occurrence — the row duplication that .distinct() collapses. -/
def tagJoin (posts : List PostT) (tid : Nat) : List PostT :=
  posts.flatMap (fun p => (p.tags.filter (fun t => t == tid)).map (fun _ => p))

/-- .distinct(): keep the first row for each primary key. -/
def dedupGo : List PostT → List Nat → List PostT
  | [], _ => []
  | p :: ps, seen =>
    if p.id ∈ seen then dedupGo ps seen
    else p :: dedupGo ps (p.id :: seen)

def distinctPosts (l : List PostT) : List PostT := dedupGo l []

/-- An optional filter dimension: an absent parameter filters nothing. -/
def optFilter {β : Type} (o : Option β) (f : β → PostT → Bool)
    (l : List PostT) : List PostT :=
  match o with
  | some x => l.filter (f x)
  | none => l

/-- The queryset of search_posts before .distinct(): published posts, the
four-field text clause when q is nonempty, then the category, tag and
author filters. -/
def search_stage (db : DB) (q : String) (category tag : Option Nat)
    (author : Option String) : List PostT :=
  let s0 := db.posts.filter (fun p => p.status == "published")
  let s1 := if q ≠ "" then s0.filter (fun p => textMatch4 db q p) else s0
  let s2 := optFilter category (fun cid p => p.categoryId == some cid) s1
  let s3 :=
    match tag with
    | some tid => tagJoin s2 tid
    | none => s2
  optFilter author (fun a p => authorUsername db p == a) s3

/-- blog/api_views.py search_posts (GET /api/posts/search/). -/
def search_posts (db : DB) (q : String) (category tag : Option Nat)
    (author : Option String) : List PostT :=
  distinctPosts (search_stage db q category tag author)

/-- The queryset of PostListView.get_queryset before .distinct():
published posts with the category, tag, author and featured filters. -/
def list_stage (db : DB) (category tag : Option Nat)
    (author : Option String) (featured : Option String) : List PostT :=
  let s0 := db.posts.filter (fun p => p.status == "published")
  let s1 := optFilter category (fun cid p => p.categoryId == some cid) s0
  let s2 :=
    match tag with
    | some tid => tagJoin s1 tid
    | none => s1
  let s3 := optFilter author (fun a p => authorUsername db p == a) s2
  optFilter featured
    (fun f p => if strToLower f == "true" then p.is_featured else true) s3

/-- blog/api_views.py PostListView.get_queryset composed with its
SearchFilter (GET /api/posts/): the filtered queryset, .distinct(), then
the three-field search clause when the search parameter is nonempty. -/
def post_list_api (db : DB) (search : String) (category tag : Option Nat)
    (author : Option String) (featured : Option String) : List PostT :=
  let s5 := distinctPosts (list_stage db category tag author featured)
  if search ≠ "" then s5.filter (fun p => textMatch3 db search p) else s5

/-- The row predicate search_posts implements. -/
def searchPred (db : DB) (q : String) (category tag : Option Nat)
    (author : Option String) (p : PostT) : Prop :=
  (p.status == "published") = true ∧
  (q = "" ∨ textMatch4 db q p = true) ∧
  Option.all (fun cid => p.categoryId == some cid) category = true ∧
  (∀ tid, tag = some tid → tid ∈ p.tags) ∧
  Option.all (fun a => authorUsername db p == a) author = true

/-- The row predicate PostListView's filters implement. -/
def listPred (db : DB) (category tag : Option Nat) (author : Option String)
    (featured : Option String) (p : PostT) : Prop :=
  (p.status == "published") = true ∧
  Option.all (fun cid => p.categoryId == some cid) category = true ∧
  (∀ tid, tag = some tid → tid ∈ p.tags) ∧
  Option.all (fun a => authorUsername db p == a) author = true ∧
  Option.all (fun f => (if strToLower f == "true" then p.is_featured else true))
    featured = true

theorem mem_optFilter {β : Type} (o : Option β) (f : β → PostT → Bool)
    (l : List PostT) (p : PostT) :
    p ∈ optFilter o f l ↔
      p ∈ l ∧ Option.all (fun x => f x p) o = true := by
  cases o <;> simp [optFilter, List.mem_filter, Option.all]

theorem mem_tagJoin (l : List PostT) (tid : Nat) (q : PostT) :
    q ∈ tagJoin l tid ↔ (q ∈ l ∧ tid ∈ q.tags) := by
  unfold tagJoin
  rw [List.mem_flatMap]
  constructor
  · rintro ⟨a, ha, hq⟩
    rcases List.mem_map.1 hq with ⟨t, ht, rfl⟩
    have hmf := List.mem_filter.1 ht
    have : t = tid := by simpa using hmf.2
    subst this
    exact ⟨ha, hmf.1⟩
  · rintro ⟨hq, htag⟩
    exact ⟨q, hq, List.mem_map.2 ⟨tid, List.mem_filter.2 ⟨htag, by simp⟩,
      rfl⟩⟩

theorem mem_map_id_dedupGo :
    ∀ (l : List PostT) (seen : List Nat) (pid : Nat),
      pid ∈ (dedupGo l seen).map (fun p => p.id) ↔
        (pid ∈ l.map (fun p => p.id) ∧ pid ∉ seen) := by
  intro l
  induction l with
  | nil => intro seen pid; simp [dedupGo]
  | cons p ps ih =>
    intro seen pid
    by_cases hseen : p.id ∈ seen
    · rw [show dedupGo (p :: ps) seen = dedupGo ps seen by
        simp [dedupGo, hseen]]
      rw [ih]
      simp only [List.map_cons, List.mem_cons]
      constructor
      · rintro ⟨hm, hns⟩
        exact ⟨Or.inr hm, hns⟩
      · rintro ⟨hm | hm, hns⟩
        · exact absurd (hm ▸ hseen) hns
        · exact ⟨hm, hns⟩
    · rw [show dedupGo (p :: ps) seen = p :: dedupGo ps (p.id :: seen) by
        simp [dedupGo, hseen]]
      simp only [List.map_cons, List.mem_cons]
      rw [ih]
      constructor
      · rintro (rfl | ⟨hm, hns⟩)
        · exact ⟨Or.inl rfl, hseen⟩
        · refine ⟨Or.inr hm, ?_⟩
          intro hc
          exact hns (List.mem_cons_of_mem _ hc)
      · rintro ⟨rfl | hm, hns⟩
        · exact Or.inl rfl
        · by_cases hpe : pid = p.id
          · exact Or.inl hpe
          · exact Or.inr ⟨hm, by simp [hpe, hns]⟩

theorem nodup_map_id_dedupGo :
    ∀ (l : List PostT) (seen : List Nat),
      ((dedupGo l seen).map (fun p => p.id)).Nodup := by
  intro l
  induction l with
  | nil => intro seen; simp [dedupGo]
  | cons p ps ih =>
    intro seen
    by_cases hseen : p.id ∈ seen
    · rw [show dedupGo (p :: ps) seen = dedupGo ps seen by
        simp [dedupGo, hseen]]
      exact ih seen
    · rw [show dedupGo (p :: ps) seen = p :: dedupGo ps (p.id :: seen) by
        simp [dedupGo, hseen]]
      rw [List.map_cons, List.nodup_cons]
      refine ⟨?_, ih (p.id :: seen)⟩
      intro hc
      have := (mem_map_id_dedupGo ps (p.id :: seen) p.id).1 hc
      exact this.2 (by simp)

theorem mem_dedupGo_inj :
    ∀ (l : List PostT),
      (∀ a ∈ l, ∀ b ∈ l, a.id = b.id → a = b) →
      ∀ (seen : List Nat) (p : PostT),
        p ∈ dedupGo l seen ↔ (p ∈ l ∧ p.id ∉ seen) := by
  intro l
  induction l with
  | nil => intro _ seen p; simp [dedupGo]
  | cons x xs ih =>
    intro hinj seen p
    have hinj' : ∀ a ∈ xs, ∀ b ∈ xs, a.id = b.id → a = b := by
      intro a ha b hb
      exact hinj a (List.mem_cons_of_mem _ ha) b (List.mem_cons_of_mem _ hb)
    by_cases hseen : x.id ∈ seen
    · rw [show dedupGo (x :: xs) seen = dedupGo xs seen by
        simp [dedupGo, hseen]]
      rw [ih hinj' seen p]
      simp only [List.mem_cons]
      constructor
      · rintro ⟨hm, hns⟩
        exact ⟨Or.inr hm, hns⟩
      · rintro ⟨rfl | hm, hns⟩
        · exact absurd hseen hns
        · exact ⟨hm, hns⟩
    · rw [show dedupGo (x :: xs) seen = x :: dedupGo xs (x.id :: seen) by
        simp [dedupGo, hseen]]
      simp only [List.mem_cons]
      rw [ih hinj' (x.id :: seen) p]
      constructor
      · rintro (rfl | ⟨hm, hns⟩)
        · exact ⟨Or.inl rfl, hseen⟩
        · refine ⟨Or.inr hm, ?_⟩
          intro hc
          exact hns (List.mem_cons_of_mem _ hc)
      · rintro ⟨rfl | hm, hns⟩
        · exact Or.inl rfl
        · by_cases hpe : p = x
          · exact Or.inl hpe
          · right
            refine ⟨hm, ?_⟩
            intro hc
            rcases List.mem_cons.1 hc with hc1 | hc2
            · exact hpe (hinj p (List.mem_cons_of_mem _ hm) x
                (List.mem_cons_self x xs) hc1)
            · exact hns hc2

theorem mem_search_stage (db : DB) (q : String) (category tag : Option Nat)
    (author : Option String) (p : PostT) :
    p ∈ search_stage db q category tag author ↔
      p ∈ db.posts ∧ searchPred db q category tag author p := by
  unfold search_stage searchPred
  rw [mem_optFilter]
  cases tag with
  | none =>
    rw [mem_optFilter]
    by_cases hq : q = ""
    · subst hq
      simp [List.mem_filter]
      tauto
    · simp [hq, List.mem_filter]
      tauto
  | some tid =>
    rw [mem_tagJoin, mem_optFilter]
    by_cases hq : q = ""
    · subst hq
      simp [List.mem_filter]
      tauto
    · simp [hq, List.mem_filter]
      tauto

theorem mem_list_stage (db : DB) (category tag : Option Nat)
    (author : Option String) (featured : Option String) (p : PostT) :
    p ∈ list_stage db category tag author featured ↔
      p ∈ db.posts ∧ listPred db category tag author featured p := by
  unfold list_stage listPred
  rw [mem_optFilter, mem_optFilter]
  cases tag with
  | none =>
    rw [mem_optFilter]
    simp [List.mem_filter]
    tauto
  | some tid =>
    rw [mem_tagJoin, mem_optFilter]
    simp [List.mem_filter]
    tauto

theorem id_inj_of_nodup (l : List PostT)
    (h : (l.map (fun p => p.id)).Nodup) (a b : PostT)
    (ha : a ∈ l) (hb : b ∈ l) (hab : a.id = b.id) : a = b := by
  have h1 := find?_id_of_nodup l h a ha
  have h2 := find?_id_of_nodup l h b hb
  rw [← hab] at h2
  rw [h1] at h2
  exact Option.some.inj h2

/-- Claim C10 counterexample: the advanced search endpoint returns a post
whose ONLY match is in the excerpt field — the claimed field set
(title, content, author-username), embodied by textMatch3, does not match
it; so the free-text term does not match exactly those three fields on
every search query. -/
theorem C10_search_fields_counterexample :
    ((search_posts ⟨[⟨1, "u", false⟩], [⟨1, "Alpha", "alpha", 1, "body",
        "Zebras rule", "published", false, 0, none, none, []⟩], [], [], []⟩
      "zebra" none none none).map (fun p => p.id) = [1]) ∧
    textMatch3 ⟨[⟨1, "u", false⟩], [⟨1, "Alpha", "alpha", 1, "body",
        "Zebras rule", "published", false, 0, none, none, []⟩], [], [], []⟩
      "zebra" ⟨1, "Alpha", "alpha", 1, "body", "Zebras rule", "published",
        false, 0, none, none, []⟩ = false := by
  constructor <;> decide

/-- Claim C10 as amended: the advanced search endpoint's free-text clause
is a case-insensitive substring OR over title, content, EXCERPT and
author-username, while the post-list endpoint's clause covers exactly
title, content and author-username; in both, the filter dimensions are
AND-combined with the text clause, and the results carry no duplicate post
ids (the .distinct() after the many-to-many tag join). -/
theorem C10_search_filters :
    (∀ (db : DB) (q : String) (category tag : Option Nat)
      (author : Option String) (pid : Nat),
      (pid ∈ (search_posts db q category tag author).map (fun p => p.id) ↔
        ∃ p, p ∈ db.posts ∧ p.id = pid ∧
          searchPred db q category tag author p) ∧
      ((search_posts db q category tag author).map (fun p => p.id)).Nodup) ∧
    (∀ (db : DB) (search : String) (category tag : Option Nat)
      (author : Option String) (featured : Option String) (pid : Nat),
      (db.posts.map (fun p => p.id)).Nodup →
      (pid ∈ (post_list_api db search category tag author featured).map
          (fun p => p.id) ↔
        ∃ p, p ∈ db.posts ∧ p.id = pid ∧
          listPred db category tag author featured p ∧
          (search = "" ∨ textMatch3 db search p = true)) ∧
      ((post_list_api db search category tag author featured).map
        (fun p => p.id)).Nodup) := by
  constructor
  · intro db q category tag author pid
    constructor
    · unfold search_posts distinctPosts
      rw [mem_map_id_dedupGo]
      simp only [List.not_mem_nil, not_false_iff, and_true]
      rw [List.mem_map]
      constructor
      · rintro ⟨p, hp, rfl⟩
        have hc := (mem_search_stage db q category tag author p).1 hp
        exact ⟨p, hc.1, rfl, hc.2⟩
      · rintro ⟨p, hmem, hpid, hpred⟩
        exact ⟨p, (mem_search_stage db q category tag author p).2
          ⟨hmem, hpred⟩, hpid⟩
    · exact nodup_map_id_dedupGo _ _
  · intro db search category tag author featured pid hids
    have hinj : ∀ a ∈ list_stage db category tag author featured,
        ∀ b ∈ list_stage db category tag author featured,
        a.id = b.id → a = b := by
      intro a ha b hb hab
      exact id_inj_of_nodup db.posts hids a b
        ((mem_list_stage db category tag author featured a).1 ha).1
        ((mem_list_stage db category tag author featured b).1 hb).1 hab
    have hmem5 : ∀ p : PostT,
        p ∈ distinctPosts (list_stage db category tag author featured) ↔
          p ∈ list_stage db category tag author featured := by
      intro p
      unfold distinctPosts
      rw [mem_dedupGo_inj _ hinj]
      simp
    by_cases hs : search = ""
    · subst hs
      constructor
      · rw [show post_list_api db "" category tag author featured =
            distinctPosts (list_stage db category tag author featured) by
          simp [post_list_api]]
        unfold distinctPosts
        rw [mem_map_id_dedupGo]
        simp only [List.not_mem_nil, not_false_iff, and_true]
        rw [List.mem_map]
        constructor
        · rintro ⟨p, hp, rfl⟩
          have hc := (mem_list_stage db category tag author featured p).1 hp
          exact ⟨p, hc.1, rfl, hc.2, by simp⟩
        · rintro ⟨p, hmem, hpid, hpred, _⟩
          exact ⟨p, (mem_list_stage db category tag author featured p).2
            ⟨hmem, hpred⟩, hpid⟩
      · rw [show post_list_api db "" category tag author featured =
            distinctPosts (list_stage db category tag author featured) by
          simp [post_list_api]]
        exact nodup_map_id_dedupGo _ _
    · have hres : post_list_api db search category tag author featured =
          (distinctPosts (list_stage db category tag author
            featured)).filter (fun p => textMatch3 db search p) := by
        simp [post_list_api, hs]
      constructor
      · rw [hres, List.mem_map]
        constructor
        · rintro ⟨p, hp, rfl⟩
          have hf := List.mem_filter.1 hp
          have hc := (mem_list_stage db category tag author featured p).1
            ((hmem5 p).1 hf.1)
          exact ⟨p, hc.1, rfl, hc.2, Or.inr hf.2⟩
        · rintro ⟨p, hmem, hpid, hpred, hor⟩
          have htext : textMatch3 db search p = true := by
            rcases hor with h | h
            · exact absurd h hs
            · exact h
          refine ⟨p, List.mem_filter.2 ⟨?_, htext⟩, hpid⟩
          exact (hmem5 p).2 ((mem_list_stage db category tag author
            featured p).2 ⟨hmem, hpred⟩)
      · rw [hres]
        have h5 := nodup_map_id_dedupGo
          (list_stage db category tag author featured) []
        have hsl : List.Sublist
            (((distinctPosts (list_stage db category tag author
              featured)).filter (fun p => textMatch3 db search p)).map
                (fun p => p.id))
            ((distinctPosts (list_stage db category tag author
              featured)).map (fun p => p.id)) :=
          List.Sublist.map _ (List.filter_sublist _)
        exact h5.sublist hsl

/-- Witness for C10's amended statement at a concrete database: the single
published post is listed exactly once. -/
theorem C10_search_filters_witness :
    1 ∈ (post_list_api ⟨[⟨1, "u", false⟩], [⟨1, "Alpha", "alpha", 1, "body",
        "ex", "published", false, 0, none, none, []⟩], [], [], []⟩
      "" none none none none).map (fun p => p.id) ∧
    ((post_list_api ⟨[⟨1, "u", false⟩], [⟨1, "Alpha", "alpha", 1, "body",
        "ex", "published", false, 0, none, none, []⟩], [], [], []⟩
      "" none none none none).map (fun p => p.id)).Nodup := by
  have h := C10_search_filters.2
    ⟨[⟨1, "u", false⟩], [⟨1, "Alpha", "alpha", 1, "body", "ex", "published",
      false, 0, none, none, []⟩], [], [], []⟩
    "" none none none none 1 (by simp)
  refine ⟨h.1.2 ⟨⟨1, "Alpha", "alpha", 1, "body", "ex", "published", false,
    0, none, none, []⟩, by simp, rfl, ?_, Or.inl rfl⟩, h.2⟩
  exact ⟨by decide, rfl, by simp, rfl, rfl⟩

end Blog
